import Mathlib

/-!
Verification development for the presence-scoring pipeline of `app.py`
(online-presence-app).  The pure decision logic of the script — the rating
extractor, the stats aggregation, the scorer and the tips engine — is
shallowly embedded below; external collaborators (HTTP fetching, HTML
parsing via BeautifulSoup, the VADER sentiment analyzer, `dateutil`'s
date parser and `urlparse`) are passed in as explicit function parameters.
Machine floats are modelled by `ℚ`; Python's `round(x, n)` (half-to-even)
is modelled by `roundN`.
-/

set_option linter.unusedVariables false

namespace App

/-! ## Rounding: Python `round(x, ndigits)` (banker's rounding) over `ℚ` -/

/-- Round to the nearest integer, ties to even (Python's `round`). -/
def roundHalfEven (q : ℚ) : ℤ :=
  if q - ⌊q⌋ < 1/2 then ⌊q⌋
  else if 1/2 < q - ⌊q⌋ then ⌊q⌋ + 1
  else if ⌊q⌋ % 2 = 0 then ⌊q⌋ else ⌊q⌋ + 1

/-- Python `round(q, k)` for `k` decimal digits. -/
def roundN (k : ℕ) (q : ℚ) : ℚ :=
  (roundHalfEven (q * 10 ^ k) : ℚ) / 10 ^ k

/-! ## Rating extractor (`extract_rating_from_text`, app.py lines 49-70)

The four compiled regexes are embedded as character-list matchers with
Python `re.search` semantics: scan for the leftmost start position at which
the pattern matches, trying the greedy alternative of each optional piece
first and backtracking if the rest of the pattern fails.
-/

/-- `[0-5]` — the leading digit of the numeric capture group. -/
def digit05 (c : Char) : Bool := '0' ≤ c && c ≤ '5'

/-- Numeric value of a digit character. -/
def digVal (c : Char) : ℚ := ((c.toNat - '0'.toNat : ℕ) : ℚ)

/-- Python `\s` (whitespace class). -/
def isSpace (c : Char) : Bool :=
  c = ' ' || c = '\t' || c = '\n' || c = '\r' || c = '\x0b' || c = '\x0c'

/-- Consume `\s*` greedily. -/
def skipSpaces : List Char → List Char
  | c :: r => if isSpace c then skipSpaces r else c :: r
  | [] => []

/-- Match a literal word case-insensitively (for the `re.I` regexes),
returning the rest of the input on success. -/
def litAt : List Char → List Char → Option (List Char)
  | [], t => some t
  | c :: cs, x :: xs => if x.toLower = c then litAt cs xs else none
  | _ :: _, [] => none

/-- The tail `[/ ]? ?5` of regex 1, in all of its backtracking alternatives:
an optional `/` or space, an optional space, then the literal `5`. -/
def tail5 (t : List Char) : Bool :=
  match t with
  | '5' :: _ => true
  | '/' :: '5' :: _ => true
  | '/' :: ' ' :: '5' :: _ => true
  | ' ' :: '5' :: _ => true
  | ' ' :: ' ' :: '5' :: _ => true
  | _ => false

/-- The tail `\s*out\s*of\s*5` of regex 2 (case-insensitive). -/
def tailOutOf5 (t : List Char) : Bool :=
  match litAt ['o', 'u', 't'] (skipSpaces t) with
  | some t2 =>
    match litAt ['o', 'f'] (skipSpaces t2) with
    | some t3 =>
      match skipSpaces t3 with
      | '5' :: _ => true
      | _ => false
    | none => false
  | none => false

/-- The tail `\s*stars?` of regex 3 (case-insensitive; the optional final
`s` does not affect whether the pattern matches). -/
def tailStars (t : List Char) : Bool :=
  (litAt ['s', 't', 'a', 'r'] (skipSpaces t)).isSome

/-- Match `([0-5](?:\.\d)?)<tail>` at the start of the input: the capture
group takes the fractional digit greedily and backtracks to the bare digit
if the tail then fails, exactly as the regex engine does. -/
def numThenTail (tail : List Char → Bool) : List Char → Option ℚ
  | c :: rest =>
    if digit05 c then
      match rest with
      | '.' :: d :: rest2 =>
        if d.isDigit then
          if tail rest2 then some (digVal c + digVal d / 10)
          else if tail rest then some (digVal c) else none
        else if tail rest then some (digVal c) else none
      | _ => if tail rest then some (digVal c) else none
    else none
  | [] => none

/-- `re.search` for a numeric pattern: leftmost matching start position. -/
def searchNum (tail : List Char → Bool) : List Char → Option ℚ
  | [] => none
  | c :: rest =>
    match numThenTail tail (c :: rest) with
    | some v => some v
    | none => searchNum tail rest

/-- Regex 4's alternation `(★★★★★|★★★★☆|★★★★|★★★☆|★★★|★★☆|★★|★☆|★)`
composed with the `star_map` lookup: alternatives are tried in order at a
given position, exactly as Lean's first-match pattern matching does. -/
def starsAt : List Char → Option ℚ
  | '★' :: '★' :: '★' :: '★' :: '★' :: _ => some 5
  | '★' :: '★' :: '★' :: '★' :: '☆' :: _ => some 4
  | '★' :: '★' :: '★' :: '★' :: _ => some 4
  | '★' :: '★' :: '★' :: '☆' :: _ => some 3
  | '★' :: '★' :: '★' :: _ => some 3
  | '★' :: '★' :: '☆' :: _ => some 2
  | '★' :: '★' :: _ => some 2
  | '★' :: '☆' :: _ => some 1
  | '★' :: _ => some 1
  | _ => none

/-- `re.search` for the star-glyph regex. -/
def searchStars : List Char → Option ℚ
  | [] => none
  | c :: rest =>
    match starsAt (c :: rest) with
    | some v => some v
    | none => searchStars rest

/-- Python's binary `min`: `min(a, b)` is `a` when `a ≤ b`. -/
def pymin (a b : ℚ) : ℚ := if a ≤ b then a else b

/-- Python's binary `max`: `max(a, b)` is `a` when `b ≤ a`. -/
def pymax (a b : ℚ) : ℚ := if b ≤ a then a else b

/-- `max(0.0, min(5.0, float(g)))` — the clamp applied to numeric groups. -/
def clampRating (v : ℚ) : ℚ := pymax 0 (pymin 5 v)

/-- `extract_rating_from_text` (app.py lines 57-70): try the four regexes
in order; numeric captures are clamped into `[0, 5]`, star captures are
looked up in `star_map`; empty text and no match both yield `none`. -/
def extract_rating_from_text (text : List Char) : Option ℚ :=
  if text.isEmpty then none
  else
    match searchNum tail5 text with
    | some v => some (clampRating v)
    | none =>
      match searchNum tailOutOf5 text with
      | some v => some (clampRating v)
      | none =>
        match searchNum tailStars text with
        | some v => some (clampRating v)
        | none => searchStars text

/-! ## Data model

`stats` dicts are embedded as a structure with the keys the pipeline
actually stores (app.py lines 521-522); a missing / `None` value is
`Option.none`, and Python truthiness of an optional string (`None` and
`""` are both falsy) is `truthy`.
-/

/-- The `stats` dict built at app.py lines 521-522. -/
structure Stats where
  num_websites : ℕ
  unique_domains : ℕ
  avg_rating : Option ℚ
  avg_sentiment : ℚ
  most_recent_date : Option String
  company_prevalence : ℚ
deriving Repr, DecidableEq

/-- The per-category breakdown dict returned by the scorer (keys
Sites / Rating / Sentiment / Recency / Company). -/
structure Breakdown where
  sites : ℚ
  rating : ℚ
  sentiment : ℚ
  recency : ℚ
  company : ℚ
deriving Repr, DecidableEq

/-- The dict returned by `calculate_presence_score`. -/
structure ScoreResult where
  score : ℚ
  grade : String
  breakdown : Breakdown
deriving Repr, DecidableEq

/-- The `inputs` dict handed to `generate_tips` (app.py line 563). -/
structure Inputs where
  name : String
  profession : String
  city : String
  company : String
deriving Repr, DecidableEq

/-- One `info` dict of the main parsing loop (app.py line 474). -/
structure PageInfo where
  url : String
  domain : String
  title : Option String
  snippet : Option String
  rating : Option ℚ
  date : Option String
  full_text : String
deriving Repr, DecidableEq

/-- One review dict as produced by the site scrapers / Places adapter. -/
structure ReviewRec where
  site : String
  rating : Option ℚ
  text : String
  url : String
  date : Option String
deriving Repr, DecidableEq

/-- One Google CSE result dict (title/href/body, app.py lines 154-158). -/
structure CseItem where
  title : Option String
  href : String
  body : Option String
deriving Repr, DecidableEq

/-- Python truthiness of an optional string: `None` and `""` are falsy. -/
def truthy : Option String → Bool
  | some s => !(s = "")
  | none => false

/-! ## Scorer (`calculate_presence_score`, app.py lines 410-438)

`dateutil.parser.parse` composed with `(datetime.utcnow() - ...).days` is
modelled by a parameter `pd : String → Option ℤ`; `pd s = none` means the
parser raises on `s`, in which case the exception escapes the recency
computation and is caught by the function's blanket `except`, which
returns the all-zero fallback result.
-/

/-- The recency sub-score (app.py lines 417-420): `some` is the computed
`rec_score`, `none` means `dateparser.parse` raised. -/
def recScoreOf (pd : String → Option ℤ) (mrd : Option String) : Option ℤ :=
  match mrd with
  | none => some 0
  | some s =>
    if s = "" then some 0
    else
      match pd s with
      | some days =>
        some (if days ≤ 7 then 100 else if days ≤ 30 then 80
              else if days ≤ 90 then 50 else if days ≤ 365 then 30 else 10)
      | none => none

/-- The grade ladder applied to the clamped total (app.py lines 427-431). -/
def gradeOf (total : ℚ) : String :=
  if 90 ≤ total then "A"
  else if 80 ≤ total then "B"
  else if 70 ≤ total then "C"
  else if 60 ≤ total then "D"
  else "F"

/-- `min(stats.get("num_websites",0), 50) / 50 * 100` (app.py line 413). -/
def sitesScoreOf (stats : Stats) : ℚ :=
  ((if stats.num_websites ≤ 50 then stats.num_websites else 50 : ℕ) : ℚ) / 50 * 100

/-- `(stats.get("avg_rating") or 0) / 5 * 100` (app.py line 414); `0.0` is
falsy in Python, so `some 0` and `none` both contribute `0`. -/
def ratingScoreOf (stats : Stats) : ℚ :=
  (match stats.avg_rating with
   | some r => if r = 0 then 0 else r
   | none => 0) / 5 * 100

/-- `((stats.get("avg_sentiment",0) + 1) / 2) * 100` (app.py line 415). -/
def sentScoreOf (stats : Stats) : ℚ := ((stats.avg_sentiment + 1) / 2) * 100

/-- `stats.get("company_prevalence",0) * 100` (app.py line 421). -/
def compScoreOf (stats : Stats) : ℚ := stats.company_prevalence * 100

/-- The weighted, clamped composite `total` (app.py lines 422-425). -/
def presTotal (stats : Stats) (rec_score : ℤ) : ℚ :=
  pymax 0 (pymin 100
    (0.35 * sitesScoreOf stats + 0.30 * ratingScoreOf stats
      + 0.15 * sentScoreOf stats + 0.10 * (rec_score : ℚ) + 0.10 * compScoreOf stats))

/-- The normal-path result of the scorer (app.py lines 425-434), given the
already-computed recency sub-score. -/
def scoreBody (stats : Stats) (rec_score : ℤ) : ScoreResult :=
  let total := presTotal stats rec_score
  { score := roundN 2 total
    grade := gradeOf total
    breakdown :=
      { sites := roundN 1 (sitesScoreOf stats)
        rating := roundN 1 (ratingScoreOf stats)
        sentiment := roundN 1 (sentScoreOf stats)
        recency := (rec_score : ℚ)
        company := roundN 1 (compScoreOf stats) } }

/-- The result returned by the blanket `except` (app.py line 438). -/
def fallbackResult : ScoreResult :=
  { score := 0, grade := "F"
    breakdown := { sites := 0, rating := 0, sentiment := 0, recency := 0, company := 0 } }

/-- `calculate_presence_score` (app.py lines 410-438). -/
def calculate_presence_score (pd : String → Option ℤ) (stats : Stats) : ScoreResult :=
  match recScoreOf pd stats.most_recent_date with
  | some rs => scoreBody stats rs
  | none => fallbackResult

/-- The composite total actually underlying the returned grade: the
clamped weighted sum on the normal path, `0` on the exception path. -/
def presTotalFull (pd : String → Option ℤ) (stats : Stats) : ℚ :=
  match recScoreOf pd stats.most_recent_date with
  | some rs => presTotal stats rs
  | none => 0

/-! ## Aggregator (app.py lines 471-522) -/

/-- Does the second list start with the first one? (helper for Python's
substring operator `in`). -/
def headMatches : List Char → List Char → Bool
  | c :: cs, x :: xs => c = x && headMatches cs xs
  | [], _ => true
  | _, [] => false

/-- Python's `needle in haystack` substring test. -/
def containsSub (needle : List Char) : List Char → Bool
  | [] => headMatches needle []
  | x :: rest => headMatches needle (x :: rest) || containsSub needle rest

/-- Python's `max` over a nonempty list (for strings: lexicographic). -/
def listMaxStr (d : String) (ds : List String) : String :=
  ds.foldl (fun acc x => if acc < x then x else acc) d

/-- The aggregation of the main pipeline (app.py lines 498-522) over the
already-parsed page records.  The external sentiment analyzer applied to
each page's selected quote (lines 503-511) is the oracle `sentOf`; one
quote is scored per parsed page, so the number of scored items equals the
number of pages. -/
def aggregate (company : String) (sentOf : PageInfo → ℚ) (parsed : List PageInfo) : Stats :=
  let num_sites := parsed.length
  let ratings := parsed.filterMap (fun p => p.rating)
  let avg_rating : Option ℚ :=
    if ratings.isEmpty then none else some (roundN 2 (ratings.sum / (ratings.length : ℚ)))
  let sentis := parsed.map sentOf
  let avg_sentiment : ℚ :=
    if parsed.isEmpty then 0 else roundN 3 (sentis.sum / (sentis.length : ℚ))
  let dates := parsed.filterMap (fun p => if truthy p.date then p.date else none)
  let most_recent : Option String :=
    match dates with
    | [] => none
    | d :: ds => some (listMaxStr d ds)
  let comp_prev : ℚ :=
    if company ≠ "" ∧ ¬ parsed.isEmpty then
      ((parsed.countP (fun p => containsSub company.toLower.toList p.full_text.toList) : ℕ) : ℚ)
        / (((if num_sites ≤ 1 then 1 else num_sites) : ℕ) : ℚ)
    else 0
  { num_websites := num_sites
    unique_domains := (parsed.map (fun p => p.domain)).eraseDups.length
    avg_rating := avg_rating
    avg_sentiment := avg_sentiment
    most_recent_date := most_recent
    company_prevalence := comp_prev }

/-- Construction of one `info` record in the main loop (app.py lines
471-496).  `netloc` models `urlparse(url).netloc`; `fetchText` models the
HTTP fetch plus BeautifulSoup text extraction (`none` = request failed or
parsing raised).  The `date` field is set to `None` at line 474 and never
reassigned in any path of the loop.  Title/snippet refinement from the
fetched HTML is display-only and modelled by keeping the CSE values; no
claim depends on those two fields. -/
def buildInfo (netloc : String → String) (fetchText : String → Option String)
    (item : CseItem) : PageInfo :=
  let base : PageInfo :=
    { url := item.href, domain := netloc item.href, title := item.title
      snippet := item.body, rating := none, date := none, full_text := "" }
  match fetchText item.href with
  | none => base
  | some text =>
    { base with
      full_text := text.toLower
      rating := extract_rating_from_text (text.toList.take 8000) }

/-- Modelled from the spec's words for claim C2 (not from the code): the
mean of all non-missing ratings pooled from both sources and reviews,
`none` when the pool is empty. -/
def avgRatingPooledSpec (parsed : List PageInfo) (reviews : List ReviewRec) : Option ℚ :=
  let pool := parsed.filterMap (fun p => p.rating) ++ reviews.filterMap (fun r => r.rating)
  if pool.isEmpty then none else some (pool.sum / (pool.length : ℚ))

/-- Modelled from the spec's words for claim C5 (not from the code): the
maximum of all successfully parsed dates across sources and reviews,
`none` when no date parses; `parseD` maps a date string to its parsed
value (`none` = unparseable, silently skipped). -/
def mostRecentPooledSpec (parseD : String → Option ℤ)
    (parsed : List PageInfo) (reviews : List ReviewRec) : Option ℤ :=
  let ds := parsed.filterMap (fun p => p.date.bind parseD)
      ++ reviews.filterMap (fun r => r.date.bind parseD)
  match ds with
  | [] => none
  | d :: rest => some (rest.foldl (fun acc x => if acc < x then x else acc) d)

/-! ## Tips engine (`generate_tips`, app.py lines 338-405) -/

def msgCity : String :=
  "Add a city (or include it in your search query) to narrow results locally."
def msgDisambig : String :=
  "Include a profession or company to better disambiguate common names."
def msgRepGood : String :=
  "Strong average rating — encourage recent reviewers to stay current."
def msgRepMixed : String :=
  "Average rating is mixed — respond to critical feedback and highlight positive testimonials."
def msgRepLow : String :=
  "Low average rating — investigate recurring complaints and respond publicly where appropriate."
def msgRepNone : String :=
  "No average rating detected — encourage satisfied clients to leave reviews on key platforms."
def msgVolLow : String :=
  "Few reviews found — implement a process to request reviews from happy customers."
def msgVolHigh : String :=
  "Healthy review volume — maintain monitoring and respond to negative feedback promptly."
def msgSentPos : String :=
  "Predominantly positive sentiment — promote great quotes in marketing materials."
def msgSentNeg : String :=
  "Negative sentiment present — prioritize resolving critical issues and public responses."
def msgPresence : String :=
  "Limited online footprint — consider directory listings, local citations, and social posts."
def msgRecStale : String :=
  "Most mentions are over a year old — fresh content and recent reviews help SEO."
def msgRecMod : String :=
  "Consider generating new mentions (press, blog, social)."

/-- The interpolated Company tip message (app.py line 396). -/
def companyMsg (c : String) : String :=
  "The company '" ++ c ++
    "' isn't common in found results — add your official website and directory listings."

/-- `pos_ratio` (app.py lines 369-372): positives strictly above 0.2 over
`max(1, len(sentiment_scores))`. -/
def posRatio (ss : List ℚ) : ℚ :=
  ((ss.countP (fun s => (0.2 : ℚ) < s) : ℕ) : ℚ)
    / (((if ss.length ≤ 1 then 1 else ss.length) : ℕ) : ℚ)

/-- Context tip 1 (app.py lines 346-347). -/
def ctxCityChunk (inputs : Inputs) : List (String × String) :=
  if inputs.city = "" then [("Search Context", msgCity)] else []

/-- Context tip 2 (app.py lines 348-349). -/
def ctxDisambigChunk (inputs : Inputs) : List (String × String) :=
  if inputs.profession = "" ∧ inputs.company = "" then [("Search Context", msgDisambig)] else []

/-- Rating tips (app.py lines 351-360); `if avg_rating:` is Python-falsy
for both `None` and `0.0`. -/
def ratingChunk (avg_rating : Option ℚ) : List (String × String) :=
  match avg_rating with
  | some r =>
    if r = 0 then [("Reputation", msgRepNone)]
    else if 4.5 ≤ r then [("Reputation", msgRepGood)]
    else if 3 ≤ r then [("Reputation", msgRepMixed)]
    else [("Reputation", msgRepLow)]
  | none => [("Reputation", msgRepNone)]

/-- Volume tips (app.py lines 362-366). -/
def volumeChunk (review_count : ℕ) : List (String × String) :=
  if review_count < 5 then [("Volume", msgVolLow)]
  else if 50 < review_count then [("Volume", msgVolHigh)]
  else []

/-- Sentiment tips (app.py lines 368-376). -/
def sentimentChunk (ss : List ℚ) : List (String × String) :=
  if (0.75 : ℚ) < posRatio ss then [("Sentiment", msgSentPos)]
  else if posRatio ss < (0.4 : ℚ) then [("Sentiment", msgSentNeg)]
  else []

/-- Presence tip (app.py lines 378-380). -/
def presenceChunk (stats : Stats) : List (String × String) :=
  if stats.num_websites < 8 then [("Presence", msgPresence)] else []

/-- Recency tips (app.py lines 382-392): a parse failure is swallowed by
the local `except: pass`, skipping the rule. -/
def recencyChunk (pd : String → Option ℤ) (mrd : Option String) : List (String × String) :=
  match mrd with
  | none => []
  | some s =>
    if s = "" then []
    else
      match pd s with
      | some days =>
        if 365 < days then [("Recency", msgRecStale)]
        else if 90 < days then [("Recency", msgRecMod)]
        else []
      | none => []

/-- Company tip (app.py lines 394-396). -/
def companyChunk (inputs : Inputs) (stats : Stats) : List (String × String) :=
  if inputs.company ≠ "" ∧ stats.company_prevalence < (0.1 : ℚ) then
    [("Company", companyMsg inputs.company)]
  else []

/-- All tips appended in program order, before deduplication
(app.py lines 339-396). -/
def rawTips (pd : String → Option ℤ) (stats : Stats) (avg_rating : Option ℚ)
    (review_count : ℕ) (sentiment_scores : List ℚ) (inputs : Inputs) :
    List (String × String) :=
  ctxCityChunk inputs ++ ctxDisambigChunk inputs ++ ratingChunk avg_rating
    ++ volumeChunk review_count ++ sentimentChunk sentiment_scores
    ++ presenceChunk stats ++ recencyChunk pd stats.most_recent_date
    ++ companyChunk inputs stats

/-- The dedup loop (app.py lines 398-405): `seen` set and `filtered`
accumulator, first occurrence of each message text wins. -/
def dedupeGo (seen : List String) (acc : List (String × String)) :
    List (String × String) → List (String × String)
  | [] => acc
  | t :: rest =>
    if t.2 ∈ seen then dedupeGo seen acc rest
    else dedupeGo (t.2 :: seen) (acc ++ [t]) rest

/-- `generate_tips`'s final dedup pass. -/
def dedupe (tips : List (String × String)) : List (String × String) :=
  dedupeGo [] [] tips

/-- `generate_tips` (app.py lines 338-405). -/
def generate_tips (pd : String → Option ℤ) (stats : Stats) (avg_rating : Option ℚ)
    (review_count : ℕ) (sentiment_scores : List ℚ) (inputs : Inputs) :
    List (String × String) :=
  dedupe (rawTips pd stats avg_rating review_count sentiment_scores inputs)

/-! ## Concrete fixtures used by counterexamples and witnesses -/

/-- A date-parse oracle that fails on every string (as `dateutil` does on
text such as "not-a-date"). -/
def pdNone (s : String) : Option ℤ := none

/-- A date-parse oracle for the sample date used in counterexamples. -/
def pdDemo (s : String) : Option ℤ := if s = "2024-01-01" then some 123 else none

/-- Scenario 1's all-empty stats record. -/
def emptyStats : Stats :=
  { num_websites := 0, unique_domains := 0, avg_rating := none
    avg_sentiment := 0, most_recent_date := none, company_prevalence := 0 }

/-- Stats whose `most_recent_date` is present but unparseable. -/
def statsBadDate : Stats :=
  { num_websites := 50, unique_domains := 50, avg_rating := some 5
    avg_sentiment := 1, most_recent_date := some "not-a-date", company_prevalence := 1 }

/-- Query inputs with every field blank. -/
def emptyInputs : Inputs := { name := "", profession := "", city := "", company := "" }

/-- A date-parse oracle reporting a fixed age of `n` days. -/
def pdDays (n : ℤ) : String → Option ℤ := fun _ => some n

/-- Stats carrying a (parseable) date, for recency witnesses. -/
def statsDated : Stats :=
  { num_websites := 0, unique_domains := 0, avg_rating := none
    avg_sentiment := 0, most_recent_date := some "2024-01-01", company_prevalence := 0 }

/-- A parsed page carrying a rating, for the C2 witness. -/
def demoPageRated : PageInfo :=
  { url := "u", domain := "d", title := none, snippet := none
    rating := some 4, date := none, full_text := "" }

/-- A review carrying a rating, for the C2 counterexample. -/
def demoReviewRated : ReviewRec :=
  { site := "Google", rating := some 5, text := "Great", url := "u", date := none }

/-- The thirteen constant tip messages, in program order. -/
def constMsgs : List String :=
  [msgCity, msgDisambig, msgRepGood, msgRepMixed, msgRepLow, msgRepNone,
   msgVolLow, msgVolHigh, msgSentPos, msgSentNeg, msgPresence, msgRecStale, msgRecMod]

/-- A review carrying a parseable date, for the C5 counterexample. -/
def demoReviewDated : ReviewRec :=
  { site := "Yelp", rating := none, text := "Great", url := "u", date := some "2024-01-01" }

/-! ## Helper lemmas -/

/-- Evaluate `digVal` on a concrete digit character. -/
theorem digVal_eq (c : Char) (n : ℕ) (h : c.toNat - '0'.toNat = n) :
    digVal c = (n : ℚ) := by rw [digVal, h]

example : extract_rating_from_text "Rated 4.5/5 stars".toList = some 4.5 := by
  rw [show extract_rating_from_text "Rated 4.5/5 stars".toList
      = some (clampRating (digVal '4' + digVal '5' / 10)) from rfl,
    digVal_eq '4' 4 rfl, digVal_eq '5' 5 rfl]
  norm_num [clampRating, pymax, pymin]
example : extract_rating_from_text "5.9/5".toList = some 5 := by
  rw [show extract_rating_from_text "5.9/5".toList
      = some (clampRating (digVal '5' + digVal '9' / 10)) from rfl,
    digVal_eq '5' 5 rfl, digVal_eq '9' 9 rfl]
  norm_num [clampRating, pymax, pymin]
example : extract_rating_from_text "★★★★☆".toList = some 4 := by decide
example : extract_rating_from_text "no score here".toList = none := by decide
example : extract_rating_from_text "isn't — rated".toList = none := by decide
example : extract_rating_from_text "".toList = none := by decide

/-- `roundHalfEven` stays between any integer bounds of its argument. -/
theorem roundHalfEven_bound {a b : ℤ} {q : ℚ} (ha : (a : ℚ) ≤ q) (hb : q ≤ (b : ℚ)) :
    a ≤ roundHalfEven q ∧ roundHalfEven q ≤ b := by
  have h1 : a ≤ ⌊q⌋ := Int.le_floor.mpr ha
  have h2 : ⌊q⌋ ≤ b := by
    have h := Int.floor_le_floor hb
    simpa using h
  have hfl : (⌊q⌋ : ℚ) ≤ q := Int.floor_le q
  unfold roundHalfEven
  split_ifs with hf hg he
  · exact ⟨h1, h2⟩
  · have hne : (⌊q⌋ : ℚ) < q := by push_neg at hf; linarith
    have hlt : ⌊q⌋ < b := by
      by_contra hcon
      push_neg at hcon
      have hbq : (b : ℚ) ≤ (⌊q⌋ : ℚ) := by exact_mod_cast hcon
      linarith
    exact ⟨by omega, by omega⟩
  · exact ⟨h1, h2⟩
  · have hne : (⌊q⌋ : ℚ) < q := by push_neg at hf; linarith
    have hlt : ⌊q⌋ < b := by
      by_contra hcon
      push_neg at hcon
      have hbq : (b : ℚ) ≤ (⌊q⌋ : ℚ) := by exact_mod_cast hcon
      linarith
    exact ⟨by omega, by omega⟩

/-- Python rounding to `k` digits stays between integer bounds. -/
theorem roundN_mem {k : ℕ} {q : ℚ} {a b : ℤ} (ha : (a : ℚ) ≤ q) (hb : q ≤ (b : ℚ)) :
    (a : ℚ) ≤ roundN k q ∧ roundN k q ≤ (b : ℚ) := by
  have hpow : (0 : ℚ) < 10 ^ k := by positivity
  have h1 : ((a * 10 ^ k : ℤ) : ℚ) ≤ q * 10 ^ k := by
    push_cast
    nlinarith
  have h2 : q * 10 ^ k ≤ ((b * 10 ^ k : ℤ) : ℚ) := by
    push_cast
    nlinarith
  obtain ⟨l, r⟩ := roundHalfEven_bound h1 h2
  have lc : ((a * 10 ^ k : ℤ) : ℚ) ≤ (roundHalfEven (q * 10 ^ k) : ℚ) := by exact_mod_cast l
  have rc : ((roundHalfEven (q * 10 ^ k) : ℤ) : ℚ) ≤ ((b * 10 ^ k : ℤ) : ℚ) := by exact_mod_cast r
  constructor
  · rw [roundN, le_div_iff₀ hpow]
    push_cast at lc ⊢
    linarith
  · rw [roundN, div_le_iff₀ hpow]
    push_cast at rc ⊢
    linarith

/-- The clamped composite always lies in [0, 100]. -/
theorem presTotal_bound (stats : Stats) (rs : ℤ) :
    0 ≤ presTotal stats rs ∧ presTotal stats rs ≤ 100 := by
  unfold presTotal pymax pymin
  split_ifs <;> constructor <;> linarith

/-- The grade string is always one of the five letters. -/
theorem gradeOf_mem (t : ℚ) : gradeOf t ∈ (["A", "B", "C", "D", "F"] : List String) := by
  unfold gradeOf
  split_ifs <;> simp

/-- Characterization of the grade ladder: closed-above boundaries. -/
theorem gradeOf_spec (t : ℚ) :
    (gradeOf t = "A" ↔ 90 ≤ t) ∧ (gradeOf t = "B" ↔ 80 ≤ t ∧ t < 90)
    ∧ (gradeOf t = "C" ↔ 70 ≤ t ∧ t < 80) ∧ (gradeOf t = "D" ↔ 60 ≤ t ∧ t < 70)
    ∧ (gradeOf t = "F" ↔ t < 60) := by
  unfold gradeOf
  split_ifs with h1 h2 h3 h4 <;>
    refine ⟨?_, ?_, ?_, ?_, ?_⟩ <;> constructor <;> intro h <;>
    first
      | rfl
      | assumption
      | (exact absurd h (by decide))
      | (obtain ⟨hl, hr⟩ := h; linarith)
      | (refine ⟨by linarith, by linarith⟩)
      | linarith

/-- The returned grade is the ladder applied to the underlying composite
total (`0` on the exception path, whose hard-coded grade is "F"). -/
theorem calc_grade_eq (pd : String → Option ℤ) (stats : Stats) :
    (calculate_presence_score pd stats).grade = gradeOf (presTotalFull pd stats) := by
  unfold calculate_presence_score presTotalFull
  rcases recScoreOf pd stats.most_recent_date with _ | rs
  · show "F" = gradeOf 0
    norm_num [gradeOf]
  · rfl

/-- The returned score is the rounded underlying composite total. -/
theorem calc_score_eq (pd : String → Option ℤ) (stats : Stats) :
    (calculate_presence_score pd stats).score = roundN 2 (presTotalFull pd stats)
    ∨ calculate_presence_score pd stats = fallbackResult := by
  unfold calculate_presence_score presTotalFull
  rcases recScoreOf pd stats.most_recent_date with _ | rs
  · exact Or.inr rfl
  · exact Or.inl rfl

/-- C1 (amended): the recency sub-score is the piecewise step function of
the parsed age (≤7→100, ≤30→80, ≤90→50, ≤365→30, else→10) and 0 when
`most_recent_date` is absent (or empty); but when `most_recent_date` is
present and fails to parse, the parse exception is caught by the scorer's
blanket handler and the whole result degrades to the all-zero fallback
(score 0, grade F, recency sub-score 0) — there is no sub-score of 20. -/
theorem spec_C1_amended (pd : String → Option ℤ) (stats : Stats) :
    (truthy stats.most_recent_date = false →
      (calculate_presence_score pd stats).breakdown.recency = 0)
    ∧ (∀ s days, stats.most_recent_date = some s → s ≠ "" → pd s = some days →
        (calculate_presence_score pd stats).breakdown.recency =
          (if days ≤ 7 then (100 : ℚ) else if days ≤ 30 then 80 else if days ≤ 90 then 50
           else if days ≤ 365 then 30 else 10))
    ∧ (∀ s, stats.most_recent_date = some s → s ≠ "" → pd s = none →
        calculate_presence_score pd stats = fallbackResult) := by
  refine ⟨fun h => ?_, fun s days hm hs hpd => ?_, fun s hm hs hpd => ?_⟩
  · rcases hm : stats.most_recent_date with _ | s
    · simp [calculate_presence_score, recScoreOf, hm, scoreBody]
    · rw [hm] at h
      have hs : s = "" := by simpa [truthy] using h
      simp [calculate_presence_score, recScoreOf, hm, hs, scoreBody]
  · have hrec : recScoreOf pd stats.most_recent_date
        = some (if days ≤ 7 then (100 : ℤ) else if days ≤ 30 then 80 else if days ≤ 90 then 50
                else if days ≤ 365 then 30 else 10) := by
      rw [hm]
      simp only [recScoreOf]
      rw [if_neg hs, hpd]
    simp only [calculate_presence_score, hrec, scoreBody]
    split_ifs <;> norm_num
  · have hrec : recScoreOf pd stats.most_recent_date = none := by
      rw [hm]
      simp only [recScoreOf]
      rw [if_neg hs, hpd]
    simp only [calculate_presence_score, hrec]

/-- Witness for C1: a date 10 days old yields recency sub-score 80. -/
theorem spec_C1_witness :
    (calculate_presence_score (pdDays 10) statsDated).breakdown.recency = 80 := by
  have h := (spec_C1_amended (pdDays 10) statsDated).2.1 "2024-01-01" 10 rfl (by decide) rfl
  rw [h]
  norm_num

/-- Counterexample to C1 as stated: with a present-but-unparseable
`most_recent_date` the recency sub-score is 0 (fallback), not 20. -/
theorem spec_C1_counterexample :
    (calculate_presence_score pdNone statsBadDate).breakdown.recency = 0
    ∧ (calculate_presence_score pdNone statsBadDate).breakdown.recency ≠ 20
    ∧ calculate_presence_score pdNone statsBadDate = fallbackResult := by
  refine ⟨rfl, ?_, rfl⟩
  rw [show calculate_presence_score pdNone statsBadDate = fallbackResult from rfl]
  norm_num [fallbackResult]

/-- C3: the all-empty stats record scores 7.5 with grade F and sub-scores
sites 0, rating 0, sentiment 50, recency 0, company 0. -/
theorem spec_C3 (pd : String → Option ℤ) :
    calculate_presence_score pd emptyStats =
      { score := 7.5, grade := "F"
        breakdown :=
          { sites := 0, rating := 0, sentiment := 50, recency := 0, company := 0 } } := by
  show scoreBody emptyStats 0 = _
  have hs : sitesScoreOf emptyStats = 0 := by norm_num [sitesScoreOf, emptyStats]
  have hr : ratingScoreOf emptyStats = 0 := by norm_num [ratingScoreOf, emptyStats]
  have hsent : sentScoreOf emptyStats = 50 := by norm_num [sentScoreOf, emptyStats]
  have hc : compScoreOf emptyStats = 0 := by norm_num [compScoreOf, emptyStats]
  have ht : presTotal emptyStats 0 = 7.5 := by
    rw [presTotal, hs, hr, hsent, hc]
    norm_num [pymax, pymin]
  simp only [scoreBody, hs, hr, hsent, hc, ht]
  norm_num [roundN, roundHalfEven, gradeOf]

/-- C7: grades are determined by the composite total with closed-above
boundaries evaluated high to low; 90.0 maps to "A" and 89.999 to "B". -/
theorem spec_C7 (pd : String → Option ℤ) (stats : Stats) :
    ((calculate_presence_score pd stats).grade = "A" ↔ 90 ≤ presTotalFull pd stats)
    ∧ ((calculate_presence_score pd stats).grade = "B" ↔
        80 ≤ presTotalFull pd stats ∧ presTotalFull pd stats < 90)
    ∧ ((calculate_presence_score pd stats).grade = "C" ↔
        70 ≤ presTotalFull pd stats ∧ presTotalFull pd stats < 80)
    ∧ ((calculate_presence_score pd stats).grade = "D" ↔
        60 ≤ presTotalFull pd stats ∧ presTotalFull pd stats < 70)
    ∧ ((calculate_presence_score pd stats).grade = "F" ↔ presTotalFull pd stats < 60)
    ∧ gradeOf 90 = "A" ∧ gradeOf (89.999 : ℚ) = "B" := by
  rw [calc_grade_eq]
  obtain ⟨hA, hB, hC, hD, hF⟩ := gradeOf_spec (presTotalFull pd stats)
  exact ⟨hA, hB, hC, hD, hF, by norm_num [gradeOf], by norm_num [gradeOf]⟩

/-- Witness for C7: the empty-stats composite (7.5) is classified below
every boundary, i.e. the "F" side of the ladder. -/
theorem spec_C7_witness : presTotalFull pdNone emptyStats < 60 := by
  have h := (spec_C7 pdNone emptyStats).2.2.2.2.1
  exact h.mp (by rw [calc_grade_eq]; norm_num [presTotalFull, recScoreOf, emptyStats, gradeOf,
    presTotal, sitesScoreOf, ratingScoreOf, sentScoreOf, compScoreOf, pymax, pymin])

/-- Rounding an integer at any precision returns it unchanged. -/
theorem roundHalfEven_intCast (m : ℤ) : roundHalfEven ((m : ℤ) : ℚ) = m := by
  unfold roundHalfEven
  rw [Int.floor_intCast]
  norm_num

/-- Python `round` at `k` digits fixes integer values. -/
theorem roundN_intCast (k : ℕ) (m : ℤ) : roundN k ((m : ℤ) : ℚ) = m := by
  unfold roundN
  have h : (m : ℚ) * 10 ^ k = ((m * 10 ^ k : ℤ) : ℚ) := by push_cast; ring
  rw [h, roundHalfEven_intCast]
  have hpow : (0 : ℚ) < 10 ^ k := by positivity
  push_cast
  field_simp

/-- The `date` field of a parsed page record is never populated
(app.py line 474; no code path reassigns it). -/
theorem buildInfo_date (netloc : String → String) (fetchText : String → Option String)
    (item : CseItem) : (buildInfo netloc fetchText item).date = none := by
  unfold buildInfo
  rcases h : fetchText item.href with _ | t <;> simp [h]

/-- C2 (amended): `avg_rating` is the two-decimal rounding of the mean of
the non-missing ratings of the parsed source records only, and is `none`
exactly when no source record carries a rating; review ratings are fetched
after this aggregation and are never pooled into it. -/
theorem spec_C2_amended (company : String) (sentOf : PageInfo → ℚ) (parsed : List PageInfo) :
    ((aggregate company sentOf parsed).avg_rating = none ↔
      parsed.filterMap (fun p => p.rating) = [])
    ∧ (∀ r, (aggregate company sentOf parsed).avg_rating = some r →
        r = roundN 2 ((parsed.filterMap (fun p => p.rating)).sum
          / ((parsed.filterMap (fun p => p.rating)).length : ℚ))) := by
  have hproj : (aggregate company sentOf parsed).avg_rating =
      (if (parsed.filterMap (fun p => p.rating)).isEmpty then none
       else some (roundN 2 ((parsed.filterMap (fun p => p.rating)).sum
         / ((parsed.filterMap (fun p => p.rating)).length : ℚ)))) := rfl
  rw [hproj]
  split_ifs with h
  · simp only [List.isEmpty_iff] at h
    simp [h]
  · simp only [List.isEmpty_iff] at h
    constructor
    · simp [h]
    · intro r hr
      exact (Option.some_injective _ hr).symm

/-- Witness for C2: one source rated 4 aggregates to `avg_rating = 4`. -/
theorem spec_C2_witness :
    (4 : ℚ) = roundN 2 (([demoPageRated].filterMap (fun p => p.rating)).sum
      / (([demoPageRated].filterMap (fun p => p.rating)).length : ℚ)) := by
  refine (spec_C2_amended "" (fun _ => 0) [demoPageRated]).2 4 ?_
  show (if ([(4 : ℚ)]).isEmpty then none
       else some (roundN 2 (([(4 : ℚ)]).sum / (([(4 : ℚ)]).length : ℚ)))) = some 4
  have h4 : ([(4 : ℚ)]).sum / (([(4 : ℚ)]).length : ℚ) = ((4 : ℤ) : ℚ) := by norm_num
  rw [h4, roundN_intCast]
  norm_num

/-- Counterexample to C2 as stated: with no source ratings and one rated
review the code yields `avg_rating = None` while the pooled mean of the
claim is 5. -/
theorem spec_C2_counterexample :
    (aggregate "" (fun _ => 0) []).avg_rating = none
    ∧ avgRatingPooledSpec [] [demoReviewRated] = some 5
    ∧ (aggregate "" (fun _ => 0) []).avg_rating ≠ avgRatingPooledSpec [] [demoReviewRated] := by
  have h2 : avgRatingPooledSpec [] [demoReviewRated] = some 5 := by
    show (if ([(5 : ℚ)]).isEmpty then none
         else some (([(5 : ℚ)]).sum / (([(5 : ℚ)]).length : ℚ))) = some 5
    norm_num
  refine ⟨rfl, h2, ?_⟩
  rw [h2, show (aggregate "" (fun _ => 0) []).avg_rating = none from rfl]
  simp

/-- C5 (amended): in this pipeline `most_recent_date` is always `None`:
the aggregation consults only the source records' `date` fields, which the
main loop never populates, and review records are not consulted at all; in
particular no date string is ever parsed during aggregation, so no parse
error can arise there. -/
theorem spec_C5_amended (netloc : String → String) (fetchText : String → Option String)
    (company : String) (sentOf : PageInfo → ℚ) (items : List CseItem) :
    (aggregate company sentOf (items.map (buildInfo netloc fetchText))).most_recent_date
      = none := by
  have hd : (items.map (buildInfo netloc fetchText)).filterMap
      (fun p => if truthy p.date then p.date else none) = [] := by
    rw [List.filterMap_eq_nil_iff]
    intro p hp
    obtain ⟨it, _, rfl⟩ := List.mem_map.mp hp
    rw [buildInfo_date]
    rfl
  show (match (items.map (buildInfo netloc fetchText)).filterMap
      (fun p => if truthy p.date then p.date else none) with
    | [] => none
    | d :: ds => some (listMaxStr d ds)) = none
  rw [hd]

/-- Counterexample to C5 as stated: with no sources and one review whose
date parses, the claim's pooled maximum is present while the code's
aggregated `most_recent_date` is absent. -/
theorem spec_C5_counterexample :
    (aggregate "" (fun _ => 0) []).most_recent_date = none
    ∧ mostRecentPooledSpec pdDemo [] [demoReviewDated] = some 123
    ∧ (aggregate "" (fun _ => 0) []).most_recent_date.isSome
        ≠ (mostRecentPooledSpec pdDemo [] [demoReviewDated]).isSome := by
  exact ⟨rfl, rfl, by decide⟩

/-- C9: aggregation and scoring are total over empty/partial input:
`avg_sentiment` is exactly 0 when no items were scored,
`company_prevalence` always lies in [0, 1] and is 0 whenever the company
string is empty or there are no sources (whatever the page texts say), and
the scorer always returns a score in [0, 100] and a grade among
A/B/C/D/F. -/
theorem spec_C9 :
    (∀ (company : String) (sentOf : PageInfo → ℚ),
      (aggregate company sentOf []).avg_sentiment = 0)
    ∧ (∀ (company : String) (sentOf : PageInfo → ℚ) (parsed : List PageInfo),
        0 ≤ (aggregate company sentOf parsed).company_prevalence
        ∧ (aggregate company sentOf parsed).company_prevalence ≤ 1)
    ∧ (∀ (sentOf : PageInfo → ℚ) (parsed : List PageInfo),
        (aggregate "" sentOf parsed).company_prevalence = 0)
    ∧ (∀ (company : String) (sentOf : PageInfo → ℚ),
        (aggregate company sentOf []).company_prevalence = 0)
    ∧ (∀ (pd : String → Option ℤ) (stats : Stats),
        0 ≤ (calculate_presence_score pd stats).score
        ∧ (calculate_presence_score pd stats).score ≤ 100
        ∧ (calculate_presence_score pd stats).grade ∈ (["A", "B", "C", "D", "F"] : List String)) := by
  refine ⟨fun company sentOf => rfl, fun company sentOf parsed => ?_,
    fun sentOf parsed => by simp [aggregate], fun company sentOf => by simp [aggregate],
    fun pd stats => ?_⟩
  · have hproj : (aggregate company sentOf parsed).company_prevalence =
        (if company ≠ "" ∧ ¬ parsed.isEmpty then
          ((parsed.countP (fun p => containsSub company.toLower.toList p.full_text.toList) : ℕ) : ℚ)
            / (((if parsed.length ≤ 1 then 1 else parsed.length) : ℕ) : ℚ)
        else 0) := rfl
    rw [hproj]
    set c := parsed.countP (fun p => containsSub company.toLower.toList p.full_text.toList)
      with hcdef
    set d : ℕ := if parsed.length ≤ 1 then 1 else parsed.length with hddef
    have hc : c ≤ parsed.length := List.countP_le_length _
    have hd1 : 1 ≤ d := by rw [hddef]; split_ifs <;> omega
    have hcd : c ≤ d := by rw [hddef]; split_ifs <;> omega
    have hdq : (0 : ℚ) < ((d : ℕ) : ℚ) := by exact_mod_cast Nat.lt_of_lt_of_le Nat.zero_lt_one hd1
    split_ifs with h
    · constructor
      · positivity
      · rw [div_le_one hdq]
        exact_mod_cast hcd
    · norm_num
  · rcases hrec : recScoreOf pd stats.most_recent_date with _ | rs
    · refine ⟨?_, ?_, ?_⟩ <;> simp [calculate_presence_score, hrec, fallbackResult]
    · have hb := presTotal_bound stats rs
      have hr := roundN_mem (k := 2) (a := 0) (b := 100)
        (by exact_mod_cast hb.1) (by exact_mod_cast hb.2)
      have hsc : (calculate_presence_score pd stats).score = roundN 2 (presTotal stats rs) := by
        simp [calculate_presence_score, hrec, scoreBody]
      have hgr : (calculate_presence_score pd stats).grade = gradeOf (presTotal stats rs) := by
        simp [calculate_presence_score, hrec, scoreBody]
      refine ⟨?_, ?_, ?_⟩
      · rw [hsc]
        exact_mod_cast hr.1
      · rw [hsc]
        exact_mod_cast hr.2
      · rw [hgr]
        exact gradeOf_mem _

/-- The clamp keeps every numeric capture inside [0, 5]. -/
theorem clampRating_mem (v : ℚ) : 0 ≤ clampRating v ∧ clampRating v ≤ 5 := by
  unfold clampRating pymax pymin
  split_ifs <;> constructor <;> linarith

/-- Star-glyph captures are the `star_map` values, all inside [0, 5]. -/
theorem starsAt_mem (l : List Char) (v : ℚ) (h : starsAt l = some v) :
    0 ≤ v ∧ v ≤ 5 := by
  unfold starsAt at h
  split at h <;> simp_all <;> norm_num [← h]

/-- Any hit of the star-glyph search lies inside [0, 5]. -/
theorem searchStars_mem : ∀ (l : List Char) (v : ℚ), searchStars l = some v → 0 ≤ v ∧ v ≤ 5 := by
  intro l
  induction l with
  | nil => intro v h; simp [searchStars] at h
  | cons c rest ih =>
    intro v h
    rw [searchStars] at h
    rcases hs : starsAt (c :: rest) with _ | w
    · rw [hs] at h
      exact ih v h
    · rw [hs] at h
      obtain rfl : w = v := by injection h
      exact starsAt_mem _ _ hs

/-- A character accepted by the `[0-5]` class is a digit. -/
theorem isDigit_of_digit05 (c : Char) (h : digit05 c = true) : c.isDigit = true := by
  simp only [digit05, Bool.and_eq_true, decide_eq_true_eq] at h
  simp only [Char.isDigit]
  rw [Bool.and_eq_true]
  constructor
  · simpa using h.1
  · have h9 : c ≤ '9' := le_trans h.2 (by decide)
    simpa using h9

/-- The numeric matcher needs a `[0-5]` digit at its start. -/
theorem numThenTail_eq_none (tail : List Char → Bool) (t : List Char)
    (h : ∀ c ∈ t, c.isDigit = false) : numThenTail tail t = none := by
  cases t with
  | nil => rfl
  | cons c rest =>
    have hc : digit05 c = false := by
      by_contra hcon
      have := isDigit_of_digit05 c (by simpa using hcon)
      have := h c (by simp)
      simp_all
    simp [numThenTail, hc]

/-- The numeric search fails on digit-free text. -/
theorem searchNum_eq_none (tail : List Char → Bool) :
    ∀ t : List Char, (∀ c ∈ t, c.isDigit = false) → searchNum tail t = none := by
  intro t
  induction t with
  | nil => intro h; rfl
  | cons c rest ih =>
    intro h
    rw [searchNum, numThenTail_eq_none tail _ h]
    exact ih (fun x hx => h x (List.mem_cons_of_mem c hx))

/-- The star-glyph matcher needs a `★` at its start. -/
theorem starsAt_eq_none (c : Char) (rest : List Char) (h : c ≠ '★') :
    starsAt (c :: rest) = none := by
  unfold starsAt
  split <;> simp_all

/-- The star-glyph search fails on star-free text. -/
theorem searchStars_eq_none : ∀ t : List Char, (∀ c ∈ t, c ≠ '★') → searchStars t = none := by
  intro t
  induction t with
  | nil => intro h; rfl
  | cons c rest ih =>
    intro h
    rw [searchStars, starsAt_eq_none c rest (h c (by simp))]
    exact ih (fun x hx => h x (List.mem_cons_of_mem c hx))

/-- C6: the Rating Normalizer returns nothing or a value in [0, 5];
out-of-range numeric captures from the N/5, N-out-of-5 and N-stars
patterns are clamped (5.9 variants all map to 5), and digit-free,
star-free text yields nothing (absent, not zero). -/
theorem spec_C6 :
    (∀ (t : List Char) (v : ℚ), extract_rating_from_text t = some v → 0 ≤ v ∧ v ≤ 5)
    ∧ extract_rating_from_text "5.9/5".toList = some 5
    ∧ extract_rating_from_text "5.8 out of 5".toList = some 5
    ∧ extract_rating_from_text "5.7 stars".toList = some 5
    ∧ (∀ t : List Char, (∀ c ∈ t, c.isDigit = false ∧ c ≠ '★') →
        extract_rating_from_text t = none) := by
  refine ⟨?_, ?_, ?_, ?_, ?_⟩
  · intro t v h
    unfold extract_rating_from_text at h
    by_cases hemp : t.isEmpty = true
    · rw [if_pos hemp] at h
      cases h
    · rw [if_neg hemp] at h
      rcases h1 : searchNum tail5 t with _ | w
      · simp only [h1] at h
        rcases h2 : searchNum tailOutOf5 t with _ | w
        · simp only [h2] at h
          rcases h3 : searchNum tailStars t with _ | w
          · simp only [h3] at h
            exact searchStars_mem t v h
          · simp only [h3] at h
            obtain rfl : clampRating w = v := by injection h
            exact clampRating_mem w
        · simp only [h2] at h
          obtain rfl : clampRating w = v := by injection h
          exact clampRating_mem w
      · simp only [h1] at h
        obtain rfl : clampRating w = v := by injection h
        exact clampRating_mem w
  · rw [show extract_rating_from_text "5.9/5".toList
        = some (clampRating (digVal '5' + digVal '9' / 10)) from rfl,
      digVal_eq '5' 5 rfl, digVal_eq '9' 9 rfl]
    norm_num [clampRating, pymax, pymin]
  · rw [show extract_rating_from_text "5.8 out of 5".toList
        = some (clampRating (digVal '5' + digVal '8' / 10)) from rfl,
      digVal_eq '5' 5 rfl, digVal_eq '8' 8 rfl]
    norm_num [clampRating, pymax, pymin]
  · rw [show extract_rating_from_text "5.7 stars".toList
        = some (clampRating (digVal '5' + digVal '7' / 10)) from rfl,
      digVal_eq '5' 5 rfl, digVal_eq '7' 7 rfl]
    norm_num [clampRating, pymax, pymin]
  · intro t h
    unfold extract_rating_from_text
    split_ifs with hemp
    · rfl
    · rw [searchNum_eq_none tail5 t (fun c hc => (h c hc).1),
        searchNum_eq_none tailOutOf5 t (fun c hc => (h c hc).1),
        searchNum_eq_none tailStars t (fun c hc => (h c hc).1),
        searchStars_eq_none t (fun c hc => (h c hc).2)]

/-- Witness for C6: a star capture of 3 is inside the bound, and text with
no digit and no star yields nothing. -/
theorem spec_C6_witness :
    ((0 : ℚ) ≤ 3 ∧ (3 : ℚ) ≤ 5) ∧ extract_rating_from_text "hello".toList = none :=
  ⟨spec_C6.1 "★★★☆".toList 3 (by decide), spec_C6.2.2.2.2 "hello".toList (by decide)⟩

/-! ## Dedup-loop lemmas -/

/-- The dedup loop only ever appends a sublist of its input to `acc`. -/
theorem dedupeGo_shape : ∀ (l : List (String × String)) (seen : List String)
    (acc : List (String × String)),
    ∃ l', List.Sublist l' l ∧ dedupeGo seen acc l = acc ++ l' := by
  intro l
  induction l with
  | nil => exact fun seen acc => ⟨[], List.nil_sublist _, by simp [dedupeGo]⟩
  | cons t rest ih =>
    intro seen acc
    by_cases hm : t.2 ∈ seen
    · obtain ⟨l', hsub, heq⟩ := ih seen acc
      exact ⟨l', hsub.cons t, by simp only [dedupeGo, if_pos hm, heq]⟩
    · obtain ⟨l', hsub, heq⟩ := ih (t.2 :: seen) (acc ++ [t])
      refine ⟨t :: l', hsub.cons₂ t, ?_⟩
      simp only [dedupeGo, if_neg hm, heq, List.append_assoc, List.singleton_append]

/-- The dedup loop never emits the same message twice. -/
theorem dedupeGo_nodup : ∀ (l : List (String × String)) (seen : List String)
    (acc : List (String × String)),
    (acc.map Prod.snd).Nodup → (∀ m ∈ acc.map Prod.snd, m ∈ seen) →
    ((dedupeGo seen acc l).map Prod.snd).Nodup := by
  intro l
  induction l with
  | nil => intro seen acc h1 h2; simpa [dedupeGo] using h1
  | cons t rest ih =>
    intro seen acc h1 h2
    by_cases hm : t.2 ∈ seen
    · simp only [dedupeGo, if_pos hm]
      exact ih seen acc h1 h2
    · simp only [dedupeGo, if_neg hm]
      apply ih
      · rw [List.map_append]
        refine h1.append (by simp) ?_
        intro m hm1 hm2
        simp only [List.map_cons, List.map_nil, List.mem_singleton] at hm2
        subst hm2
        exact hm (h2 _ hm1)
      · intro m hm'
        rw [List.map_append] at hm'
        rcases List.mem_append.mp hm' with h | h
        · exact List.mem_cons_of_mem _ (h2 m h)
        · simp only [List.map_cons, List.map_nil, List.mem_singleton] at h
          subst h
          exact List.mem_cons_self _ _

/-- Every message of the input survives into the dedup loop's output
(unless it was already recorded as seen). -/
theorem dedupeGo_covers : ∀ (l : List (String × String)) (seen : List String)
    (acc : List (String × String)) (m : String), m ∈ l.map Prod.snd →
    m ∈ seen ∨ m ∈ (dedupeGo seen acc l).map Prod.snd := by
  intro l
  induction l with
  | nil => intro seen acc m hm; simp at hm
  | cons t rest ih =>
    intro seen acc m hm
    rw [List.map_cons, List.mem_cons] at hm
    by_cases hs : t.2 ∈ seen
    · simp only [dedupeGo, if_pos hs]
      rcases hm with rfl | hm
      · exact Or.inl hs
      · exact ih seen acc m hm
    · simp only [dedupeGo, if_neg hs]
      have hself : t.2 ∈ (dedupeGo (t.2 :: seen) (acc ++ [t]) rest).map Prod.snd := by
        obtain ⟨l', _, heq⟩ := dedupeGo_shape rest (t.2 :: seen) (acc ++ [t])
        rw [heq]
        exact List.mem_map_of_mem Prod.snd (by simp)
      rcases hm with rfl | hm
      · exact Or.inr hself
      · rcases ih (t.2 :: seen) (acc ++ [t]) m hm with h | h
        · rcases List.mem_cons.mp h with rfl | h2
          · exact Or.inr hself
          · exact Or.inl h2
        · exact Or.inr h

/-- First occurrence wins: every element of the dedup loop's output is the
first element of the input carrying its message. -/
theorem dedupeGo_find : ∀ (l : List (String × String)) (seen : List String)
    (acc : List (String × String)) (t' : String × String),
    t' ∈ dedupeGo seen acc l →
    t' ∈ acc ∨ (t'.2 ∉ seen ∧ l.find? (fun u => u.2 = t'.2) = some t') := by
  intro l
  induction l with
  | nil => intro seen acc t' h; exact Or.inl (by simpa [dedupeGo] using h)
  | cons t rest ih =>
    intro seen acc t' h
    by_cases hs : t.2 ∈ seen
    · simp only [dedupeGo, if_pos hs] at h
      rcases ih seen acc t' h with h1 | ⟨hns, hfind⟩
      · exact Or.inl h1
      · refine Or.inr ⟨hns, ?_⟩
        have hne : ¬ (t.2 = t'.2) := fun he => hns (he ▸ hs)
        rw [List.find?_cons_of_neg _ (by simpa using hne)]
        exact hfind
    · simp only [dedupeGo, if_neg hs] at h
      rcases ih (t.2 :: seen) (acc ++ [t]) t' h with h1 | ⟨hns, hfind⟩
      · rcases List.mem_append.mp h1 with h2 | h2
        · exact Or.inl h2
        · have ht : t' = t := by simpa using h2
          subst ht
          refine Or.inr ⟨hs, ?_⟩
          rw [List.find?_cons_of_pos _ (by simp)]
      · have hne : ¬ (t'.2 = t.2) := fun he => hns (by simp [he])
        refine Or.inr ⟨fun hc => hns (List.mem_cons_of_mem _ hc), ?_⟩
        rw [List.find?_cons_of_neg _ (by simpa using fun he => hne (by rw [he]))]
        exact hfind

/-- On an input whose messages are already distinct the dedup loop is the
identity (relative to `acc` and a disjoint `seen`). -/
theorem dedupeGo_id : ∀ (l : List (String × String)) (seen : List String)
    (acc : List (String × String)),
    (l.map Prod.snd).Nodup → (∀ m ∈ l.map Prod.snd, m ∉ seen) →
    dedupeGo seen acc l = acc ++ l := by
  intro l
  induction l with
  | nil => intro seen acc _ _; simp [dedupeGo]
  | cons t rest ih =>
    intro seen acc h1 h2
    have hs : t.2 ∉ seen := h2 t.2 (by simp)
    rw [List.map_cons, List.nodup_cons] at h1
    simp only [dedupeGo, if_neg hs]
    rw [ih (t.2 :: seen) (acc ++ [t]) h1.2 ?_]
    · simp
    · intro m hm
      rw [List.mem_cons]
      push_neg
      exact ⟨fun he => h1.1 (he ▸ hm), h2 m (List.mem_cons_of_mem _ hm)⟩

/-! ## Distinctness of the tip messages -/

/-- The Company message always starts with a capital T. -/
theorem companyMsg_head (c : String) : (companyMsg c).data.head? = some 'T' := by
  obtain ⟨lc⟩ := c
  rfl

/-- A string not starting with T is never a Company message. -/
theorem ne_companyMsg {m : String} (h : m.data.head? ≠ some 'T') (c : String) :
    m ≠ companyMsg c :=
  fun he => h (by rw [he]; exact companyMsg_head c)

/-- The full message pool (constants plus the one interpolated Company
message) has no duplicates. -/
theorem allMsgs_nodup (comp : String) : (constMsgs ++ [companyMsg comp]).Nodup := by
  refine List.Nodup.append (by decide) (by simp) ?_
  intro m hm hx
  have hx' : m = companyMsg comp := by simpa using hx
  simp only [constMsgs, List.mem_cons, List.not_mem_nil, or_false] at hm
  rcases hm with rfl | rfl | rfl | rfl | rfl | rfl | rfl | rfl | rfl | rfl | rfl | rfl | rfl <;>
    exact ne_companyMsg (by decide) comp hx'

theorem ctxCityChunk_sublist (inp : Inputs) :
    List.Sublist ((ctxCityChunk inp).map Prod.snd) [msgCity] := by
  unfold ctxCityChunk
  split_ifs <;> simp

theorem ctxDisambigChunk_sublist (inp : Inputs) :
    List.Sublist ((ctxDisambigChunk inp).map Prod.snd) [msgDisambig] := by
  unfold ctxDisambigChunk
  split_ifs <;> simp

theorem ratingChunk_sublist (ar : Option ℚ) :
    List.Sublist ((ratingChunk ar).map Prod.snd) [msgRepGood, msgRepMixed, msgRepLow, msgRepNone] := by
  rcases ar with _ | r <;> simp only [ratingChunk]
  · decide
  · split_ifs <;> decide

theorem volumeChunk_sublist (rc : ℕ) :
    List.Sublist ((volumeChunk rc).map Prod.snd) [msgVolLow, msgVolHigh] := by
  unfold volumeChunk
  split_ifs <;> decide

theorem sentimentChunk_sublist (ss : List ℚ) :
    List.Sublist ((sentimentChunk ss).map Prod.snd) [msgSentPos, msgSentNeg] := by
  unfold sentimentChunk
  split_ifs <;> decide

theorem presenceChunk_sublist (stats : Stats) :
    List.Sublist ((presenceChunk stats).map Prod.snd) [msgPresence] := by
  unfold presenceChunk
  split_ifs <;> simp

theorem recencyChunk_sublist (pd : String → Option ℤ) (mrd : Option String) :
    List.Sublist ((recencyChunk pd mrd).map Prod.snd) [msgRecStale, msgRecMod] := by
  rcases mrd with _ | s <;> simp only [recencyChunk]
  · decide
  · split_ifs with h
    · decide
    · rcases hps : pd s with _ | days <;> simp only [hps]
      · decide
      · split_ifs <;> decide

theorem companyChunk_sublist (inp : Inputs) (stats : Stats) :
    List.Sublist ((companyChunk inp stats).map Prod.snd) [companyMsg inp.company] := by
  unfold companyChunk
  split_ifs <;> simp

/-- The raw tip messages form (in order) a sublist of the message pool. -/
theorem rawTips_msgs_sublist (pd : String → Option ℤ) (stats : Stats) (ar : Option ℚ)
    (rc : ℕ) (ss : List ℚ) (inp : Inputs) :
    List.Sublist ((rawTips pd stats ar rc ss inp).map Prod.snd) (constMsgs ++ [companyMsg inp.company]) := by
  show List.Sublist ((ctxCityChunk inp ++ ctxDisambigChunk inp ++ ratingChunk ar ++ volumeChunk rc
      ++ sentimentChunk ss ++ presenceChunk stats ++ recencyChunk pd stats.most_recent_date
      ++ companyChunk inp stats).map Prod.snd)
    (([msgCity] ++ [msgDisambig] ++ [msgRepGood, msgRepMixed, msgRepLow, msgRepNone]
      ++ [msgVolLow, msgVolHigh] ++ [msgSentPos, msgSentNeg] ++ [msgPresence]
      ++ [msgRecStale, msgRecMod]) ++ [companyMsg inp.company])
  simp only [List.map_append]
  exact (((((((ctxCityChunk_sublist inp).append (ctxDisambigChunk_sublist inp)).append
    (ratingChunk_sublist ar)).append (volumeChunk_sublist rc)).append
    (sentimentChunk_sublist ss)).append (presenceChunk_sublist stats)).append
    (recencyChunk_sublist pd stats.most_recent_date)).append
    (companyChunk_sublist inp stats)

/-- No two raw tips ever carry the same message text. -/
theorem rawTips_msgs_nodup (pd : String → Option ℤ) (stats : Stats) (ar : Option ℚ)
    (rc : ℕ) (ss : List ℚ) (inp : Inputs) :
    ((rawTips pd stats ar rc ss inp).map Prod.snd).Nodup :=
  (allMsgs_nodup inp.company).sublist (rawTips_msgs_sublist pd stats ar rc ss inp)

/-- Since the raw messages are already distinct, the dedup pass of
`generate_tips` returns the raw list unchanged. -/
theorem generate_tips_eq_raw (pd : String → Option ℤ) (stats : Stats) (ar : Option ℚ)
    (rc : ℕ) (ss : List ℚ) (inp : Inputs) :
    generate_tips pd stats ar rc ss inp = rawTips pd stats ar rc ss inp := by
  unfold generate_tips dedupe
  rw [dedupeGo_id _ [] [] (rawTips_msgs_nodup pd stats ar rc ss inp) (by simp)]
  simp

/-- C8: the tip list returned by `generate_tips` never contains two tips
with the same message text; it is an order-preserving sublist of the raw
tips, every raw message is represented, and each returned tip is the first
raw tip carrying its message (first occurrence wins). -/
theorem spec_C8 (pd : String → Option ℤ) (stats : Stats) (ar : Option ℚ)
    (rc : ℕ) (ss : List ℚ) (inp : Inputs) :
    (((generate_tips pd stats ar rc ss inp).map Prod.snd).Nodup)
    ∧ List.Sublist (generate_tips pd stats ar rc ss inp) (rawTips pd stats ar rc ss inp)
    ∧ (∀ t ∈ rawTips pd stats ar rc ss inp,
        t.2 ∈ (generate_tips pd stats ar rc ss inp).map Prod.snd)
    ∧ (∀ t' ∈ generate_tips pd stats ar rc ss inp,
        (rawTips pd stats ar rc ss inp).find? (fun u => u.2 = t'.2) = some t') := by
  refine ⟨?_, ?_, ?_, ?_⟩
  · exact dedupeGo_nodup _ [] [] (by simp) (by simp)
  · obtain ⟨l', hsub, heq⟩ := dedupeGo_shape (rawTips pd stats ar rc ss inp) [] []
    show List.Sublist (dedupeGo [] [] _) _
    rw [heq]
    simpa using hsub
  · intro t ht
    have hm : t.2 ∈ (rawTips pd stats ar rc ss inp).map Prod.snd :=
      List.mem_map_of_mem Prod.snd ht
    rcases dedupeGo_covers (rawTips pd stats ar rc ss inp) [] [] t.2 hm with h | h
    · simp at h
    · exact h
  · intro t' ht'
    rcases dedupeGo_find (rawTips pd stats ar rc ss inp) [] [] t' ht' with h | ⟨_, h⟩
    · simp at h
    · exact h

/-- Witness for C8: with blank inputs, the city-context message appears in
the deduplicated output. -/
theorem spec_C8_witness :
    msgCity ∈ (generate_tips pdNone emptyStats none 0 [] emptyInputs).map Prod.snd :=
  (spec_C8 pdNone emptyStats none 0 [] emptyInputs).2.2.1 ("Search Context", msgCity)
    (by simp [rawTips, ctxCityChunk, emptyInputs])

/-- C10: with an empty `sentiment_values` list, `pos_ratio` is 0 (the
division is guarded by `max(1, 0)`), which is below the 0.4 threshold, so
the negative Sentiment tip is always emitted despite the absence of any
sentiment data. -/
theorem spec_C10 :
    posRatio [] = 0 ∧ ((0 : ℚ) < 0.4)
    ∧ ∀ (pd : String → Option ℤ) (stats : Stats) (ar : Option ℚ) (rc : ℕ) (inp : Inputs),
        ("Sentiment", msgSentNeg) ∈ generate_tips pd stats ar rc [] inp := by
  have h0 : posRatio ([] : List ℚ) = 0 := by
    unfold posRatio
    norm_num
  refine ⟨h0, by norm_num, ?_⟩
  intro pd stats ar rc inp
  rw [generate_tips_eq_raw]
  have hmem : ("Sentiment", msgSentNeg) ∈ sentimentChunk [] := by
    unfold sentimentChunk
    rw [h0, if_neg (by norm_num), if_pos (by norm_num)]
    simp
  unfold rawTips
  simp only [List.mem_append]
  exact Or.inl (Or.inl (Or.inl (Or.inr hmem)))

/-- C4 (amended): exactly one Reputation tip is always emitted; a present
nonzero `avg_rating` selects the positive (≥4.5), mixed ([3, 4.5)) or
negative (<3) tip, but because `0.0` is falsy in Python, an absent *or
zero* `avg_rating` selects the "no rating detected" tip — so a present
rating of 0.0 does not produce the negative tip the claim expects. -/
theorem spec_C4_amended (pd : String → Option ℤ) (stats : Stats) (ar : Option ℚ)
    (rc : ℕ) (ss : List ℚ) (inp : Inputs) :
    ((generate_tips pd stats ar rc ss inp).countP (fun t => t.1 = "Reputation") = 1)
    ∧ (∀ r, ar = some r → r ≠ 0 → (4.5 : ℚ) ≤ r →
        ("Reputation", msgRepGood) ∈ generate_tips pd stats ar rc ss inp)
    ∧ (∀ r, ar = some r → r ≠ 0 → 3 ≤ r → r < (4.5 : ℚ) →
        ("Reputation", msgRepMixed) ∈ generate_tips pd stats ar rc ss inp)
    ∧ (∀ r, ar = some r → r ≠ 0 → r < 3 →
        ("Reputation", msgRepLow) ∈ generate_tips pd stats ar rc ss inp)
    ∧ ((ar = none ∨ ar = some 0) →
        ("Reputation", msgRepNone) ∈ generate_tips pd stats ar rc ss inp) := by
  have hrep : ∀ (mrd : Option String),
      (recencyChunk pd mrd).countP (fun t => t.1 = "Reputation") = 0 := by
    intro mrd
    rcases mrd with _ | s <;> simp only [recencyChunk]
    · rfl
    · split_ifs with h
      · rfl
      · rcases hps : pd s with _ | days <;> simp only [hps]
        · rfl
        · split_ifs <;> simp [List.countP_cons]
  refine ⟨?_, fun r har hr0 hge => ?_, fun r har hr0 hge3 hlt => ?_,
    fun r har hr0 hlt => ?_, fun har => ?_⟩
  · rw [generate_tips_eq_raw]
    unfold rawTips
    simp only [List.countP_append]
    have h1 : (ctxCityChunk inp).countP (fun t => t.1 = "Reputation") = 0 := by
      unfold ctxCityChunk
      split_ifs <;> simp [List.countP_cons]
    have h2 : (ctxDisambigChunk inp).countP (fun t => t.1 = "Reputation") = 0 := by
      unfold ctxDisambigChunk
      split_ifs <;> simp [List.countP_cons]
    have h3 : (ratingChunk ar).countP (fun t => t.1 = "Reputation") = 1 := by
      rcases ar with _ | r <;> simp only [ratingChunk]
      · simp [List.countP_cons]
      · split_ifs <;> simp [List.countP_cons]
    have h4 : (volumeChunk rc).countP (fun t => t.1 = "Reputation") = 0 := by
      unfold volumeChunk
      split_ifs <;> simp [List.countP_cons]
    have h5 : (sentimentChunk ss).countP (fun t => t.1 = "Reputation") = 0 := by
      unfold sentimentChunk
      split_ifs <;> simp [List.countP_cons]
    have h6 : (presenceChunk stats).countP (fun t => t.1 = "Reputation") = 0 := by
      unfold presenceChunk
      split_ifs <;> simp [List.countP_cons]
    have h8 : (companyChunk inp stats).countP (fun t => t.1 = "Reputation") = 0 := by
      unfold companyChunk
      split_ifs <;> simp [List.countP_cons]
    rw [h1, h2, h3, h4, h5, h6, hrep, h8]
  · rw [generate_tips_eq_raw]
    unfold rawTips
    have h3 : ratingChunk ar = [("Reputation", msgRepGood)] := by
      rw [har]
      simp only [ratingChunk]
      rw [if_neg hr0, if_pos hge]
    rw [h3]
    simp
  · rw [generate_tips_eq_raw]
    unfold rawTips
    have h3 : ratingChunk ar = [("Reputation", msgRepMixed)] := by
      rw [har]
      simp only [ratingChunk]
      rw [if_neg hr0, if_neg (not_le.mpr hlt), if_pos hge3]
    rw [h3]
    simp
  · rw [generate_tips_eq_raw]
    unfold rawTips
    have h3 : ratingChunk ar = [("Reputation", msgRepLow)] := by
      rw [har]
      simp only [ratingChunk]
      rw [if_neg hr0, if_neg (by linarith : ¬ (4.5 : ℚ) ≤ r), if_neg (not_le.mpr hlt)]
    rw [h3]
    simp
  · rw [generate_tips_eq_raw]
    unfold rawTips
    have h3 : ratingChunk ar = [("Reputation", msgRepNone)] := by
      rcases har with rfl | rfl
      · simp only [ratingChunk]
      · simp [ratingChunk]
    rw [h3]
    simp

/-- Witness for C4: a present rating of 5 yields the positive tip. -/
theorem spec_C4_witness :
    ("Reputation", msgRepGood) ∈ generate_tips pdNone emptyStats (some 5) 0 [] emptyInputs :=
  (spec_C4_amended pdNone emptyStats (some 5) 0 [] emptyInputs).2.1 5 rfl
    (by norm_num) (by norm_num)

/-- Counterexample to C4 as stated: `avg_rating = 0.0` is present and
below 3, yet the code emits the "no rating detected" tip, not the
negative-reputation tip. -/
theorem spec_C4_counterexample :
    ("Reputation", msgRepNone) ∈ generate_tips pdNone emptyStats (some 0) 99 [] emptyInputs
    ∧ ("Reputation", msgRepLow) ∉ generate_tips pdNone emptyStats (some 0) 99 [] emptyInputs := by
  have hrc : ratingChunk (some 0) = [("Reputation", msgRepNone)] := by
    simp [ratingChunk]
  have h0 : posRatio ([] : List ℚ) = 0 := by
    unfold posRatio
    norm_num
  have hsent : sentimentChunk ([] : List ℚ) = [("Sentiment", msgSentNeg)] := by
    unfold sentimentChunk
    rw [h0, if_neg (by norm_num), if_pos (by norm_num)]
  rw [generate_tips_eq_raw, rawTips, hrc, hsent]
  constructor
  · simp
  · simp [ctxCityChunk, ctxDisambigChunk, volumeChunk, presenceChunk, recencyChunk,
      companyChunk, emptyStats, emptyInputs, msgRepLow, msgRepNone, msgCity, msgDisambig,
      msgSentNeg]

end App
